import Mathlib

/-!
Verification development for the FVG (Fair Value Gap) trading strategy
(src/strategy/fvg_strategy.py).  The strategy code is shallowly embedded:
prices are rationals, pandas column operations become list/index functions,
the broker is an explicit oracle, and the mutable positions dictionary is an
association list threaded through the operations.  Where pandas produces NaN
(shifted cells before the start of a series) the source compares NaN with
numbers, which is always false; the embedding reproduces that with explicit
index guards.
-/

namespace FVG

/-! ### Data model: position records and broker-facing order types -/

/-- Position lifecycle status, with the exact string constants used by the
source (the spec calls the stop-loss closure state CLOSED_STOP; the source
string is CLOSED_SL). -/
inductive Status where
  | ATTEMPTING
  | PENDING_ENTRY
  | OPEN
  | FAILED
  | CLOSED_SL
  | CLOSED_TARGET
  deriving DecidableEq, Repr

/-- Terminal statuses: CLOSED_SL, CLOSED_TARGET, FAILED. -/
def terminalStatus (s : Status) : Bool :=
  s = Status.CLOSED_SL || s = Status.CLOSED_TARGET || s = Status.FAILED

/-- Transaction side of an order (brokers.TransactionType). -/
inductive TransactionType where
  | BUY
  | SELL
  deriving DecidableEq, Repr

/-- Order type (brokers.OrderType); the strategy uses STOP and LIMIT. -/
inductive OrderType where
  | STOP
  | LIMIT
  deriving DecidableEq, Repr

/-- Order request as built by FVGStrategy._place_basket_order.  The
exchange/symbol split and the constant MARGIN product type are carried by
keeping the full symbol string. -/
structure OrderRequest where
  symbol : String
  transaction_type : TransactionType
  quantity : ℚ
  order_type : OrderType
  price : ℚ
  stop_price : Option ℚ
  deriving DecidableEq, Repr

/-- Broker response to one order of a basket (status string plus id). -/
structure OrderResponse where
  status : String
  order_id : ℕ
  deriving DecidableEq, Repr

/-- One per-instrument position record, mirroring the dictionary created in
FVGStrategy._place_basket_order. -/
structure Position where
  order_id : Option ℕ
  sl_order_id : Option ℕ
  target_order_id : Option ℕ
  entry_price : ℚ
  stop_loss : ℚ
  target : ℚ
  status : Status
  type : String
  deriving DecidableEq, Repr

/-- The positions dictionary (self.positions), insertion ordered. -/
abbrev PosMap := List (String × Position)

/-- Dictionary key lookup (symbol in self.positions / self.positions[symbol]). -/
def findPos : PosMap → String → Option Position
  | [], _ => none
  | (s, p) :: rest, sym => if s = sym then some p else findPos rest sym

/-- Strategy configuration fields consumed by the embedded operations. -/
structure Config where
  swing_lookback : ℕ
  order_block_proximity_percent : ℚ
  risk_reward_ratio : ℚ
  lot_size : ℚ
  deriving Repr

/-- Candle dataframe with the indicator columns present when
check_entry_conditions runs.  Open/High/Low/Close come from the broker
history; ema200/vwap/atr are produced by the pandas_ta collaborators
(calculate_indicators) and are treated as inputs here. -/
structure Df where
  Open : List ℚ
  High : List ℚ
  Low : List ℚ
  Close : List ℚ
  ema200 : List ℚ
  vwap : List ℚ
  atr : List ℚ
  deriving Repr

/-- Column mean, as pandas Series.mean on a NaN-free column. -/
def colMean (l : List ℚ) : ℚ := l.sum / l.length

/-! ### FVG detector (FVGStrategy.get_fair_value_gaps) -/

/-- Signed body-return of candle i in percent:
(Close - Open) / Open * 100 (column bar_delta_percent). -/
def bar_delta_percent (o c : List ℚ) (i : ℕ) : ℚ :=
  (c.getD i 0 - o.getD i 0) / o.getD i 0 * 100

/-- Expanding mean of the absolute body-return up to and including candle i,
scaled by 0.8 (column fvg_threshold). -/
def fvg_threshold (o c : List ℚ) (i : ℕ) : ℚ :=
  ((List.range (i + 1)).map (fun j => |bar_delta_percent o c j|)).sum
    / (i + 1) * (8 / 10)

/-- Bullish FVG flag at index i: the gap condition Low[i] > High[i-2]
together with the momentum condition on the previous candle
(bar_delta_percent.shift(1) > fvg_threshold.shift(1)).  The shifted cells
are NaN for i < 2, so the source flag is false there. -/
def bullish_fvg (o h l c : List ℚ) (i : ℕ) : Bool :=
  decide (2 ≤ i) && decide (h.getD (i - 2) 0 < l.getD i 0)
    && decide (fvg_threshold o c (i - 1) < bar_delta_percent o c (i - 1))

/-- Bearish FVG flag at index i: High[i] < Low[i-2] together with
bar_delta_percent.shift(1) < -fvg_threshold.shift(1). -/
def bearish_fvg (o h l c : List ℚ) (i : ℕ) : Bool :=
  decide (2 ≤ i) && decide (h.getD i 0 < l.getD (i - 2) 0)
    && decide (bar_delta_percent o c (i - 1) < -(fvg_threshold o c (i - 1)))

/-- Column bullish_fvg_bottom: High[i-2] where the bullish flag holds,
NaN (none) elsewhere. -/
def bullish_fvg_bottom (o h l c : List ℚ) (i : ℕ) : Option ℚ :=
  if bullish_fvg o h l c i then some (h.getD (i - 2) 0) else none

/-- Column bearish_fvg_top: Low[i-2] where the bearish flag holds. -/
def bearish_fvg_top (o h l c : List ℚ) (i : ℕ) : Option ℚ :=
  if bearish_fvg o h l c i then some (l.getD (i - 2) 0) else none

/-! ### Swing point detector (FVGStrategy.get_swing_points)

The source calls scipy.signal.find_peaks(series, distance, prominence).
The library semantics are embedded: interior local maxima (with plateau
midpoints) are collected, then peaks closer than the distance are thinned
in decreasing height order, then peaks whose prominence is below the floor
are dropped. -/

/-- Scan of the plateau ahead of a candidate peak: the first index j with
start ≤ j that is the last interior index or carries a value different
from v (the inner while loop of scipy _local_maxima_1d). -/
def plateauEnd (x : List ℚ) (imax : ℕ) (v : ℚ) : ℕ → ℕ → ℕ
  | 0, j => j
  | fuel + 1, j =>
    if j < imax ∧ x.getD j 0 = v then plateauEnd x imax v fuel (j + 1) else j

/-- Interior local maxima of a series, as scipy _local_maxima_1d: i is a
candidate when x[i-1] < x[i]; the plateau ahead is skipped; the candidate
is accepted when the first differing value is smaller; the recorded index
is the plateau midpoint.  Runs on indices 1 .. length-2. -/
def localMaximaAux (x : List ℚ) (n : ℕ) : ℕ → ℕ → List ℕ
  | 0, _ => []
  | fuel + 1, i =>
    if i + 1 < n then
      if x.getD (i - 1) 0 < x.getD i 0 then
        let ia := plateauEnd x (n - 1) (x.getD i 0) n (i + 1)
        if x.getD ia 0 < x.getD i 0 then
          (i + (ia - 1)) / 2 :: localMaximaAux x n fuel (ia + 1)
        else localMaximaAux x n fuel (i + 1)
      else localMaximaAux x n fuel (i + 1)
    else []

/-- All interior local maxima of x. -/
def localMaxima (x : List ℚ) : List ℕ :=
  localMaximaAux x x.length x.length 1

/-- Stable insertion into a list sorted by ascending priority (equal
priorities keep insertion order, matching a stable argsort). -/
def insertByPriority (pri : ℕ → ℚ) (p : ℕ) : List ℕ → List ℕ
  | [] => [p]
  | q :: rest =>
    if pri p < pri q then p :: q :: rest else q :: insertByPriority pri p rest

/-- Stable insertion sort by ascending priority. -/
def sortByPriority (pri : ℕ → ℚ) : List ℕ → List ℕ
  | [] => []
  | p :: rest => insertByPriority pri p (sortByPriority pri rest)

/-- Kill every other peak strictly within distance d of peak p. -/
def killRange (d p : ℕ) (keep : ℕ → Bool) : ℕ → Bool :=
  fun k => if k ≠ p ∧ k < p + d ∧ p < k + d then false else keep k

/-- One step of scipy _select_by_peak_distance: a peak still kept removes
all neighbours strictly within the distance. -/
def selStep (d : ℕ) (keep : ℕ → Bool) (p : ℕ) : ℕ → Bool :=
  if keep p then killRange d p keep else keep

/-- Peaks surviving the distance condition: processed in decreasing height
order (ties processed later-index first, as the reversed stable argsort),
each surviving peak removes its neighbours strictly within d. -/
def selectByPeakDistance (peaks : List ℕ) (pri : ℕ → ℚ) (d : ℕ) : List ℕ :=
  let order := (sortByPriority pri peaks).reverse
  let keep := order.foldl (selStep d) (fun _ => true)
  peaks.filter (fun p => keep p)

/-- Leftward walk of scipy _peak_prominences: minimum of the values at
indices i, i-1, ... while they stay ≤ v, stopping at the first larger
value or the start of the series. -/
def promLeftMin (x : List ℚ) (v : ℚ) : ℕ → ℚ → ℚ
  | 0, m => if x.getD 0 0 ≤ v then min m (x.getD 0 0) else m
  | i + 1, m =>
    if x.getD (i + 1) 0 ≤ v then promLeftMin x v i (min m (x.getD (i + 1) 0))
    else m

/-- Rightward walk of scipy _peak_prominences, bounded by the last index. -/
def promRightMin (x : List ℚ) (v : ℚ) (imax : ℕ) : ℕ → ℕ → ℚ → ℚ
  | 0, _, m => m
  | fuel + 1, i, m =>
    if i ≤ imax ∧ x.getD i 0 ≤ v then
      promRightMin x v imax fuel (i + 1) (min m (x.getD i 0))
    else m

/-- Prominence of a peak: its height minus the higher of the two base
minima reached by walking left and right while values stay below it. -/
def prominence (x : List ℚ) (p : ℕ) : ℚ :=
  let v := x.getD p 0
  v - max (promLeftMin x v p v) (promRightMin x v (x.length - 1) x.length p v)

/-- scipy.signal.find_peaks(x, distance=d, prominence=pmin): local maxima,
thinned by the distance condition, then filtered by prominence ≥ pmin. -/
def find_peaks (x : List ℚ) (d : ℕ) (pmin : ℚ) : List ℕ :=
  let peaks := localMaxima x
  let kept := selectByPeakDistance peaks (fun p => x.getD p 0) d
  kept.filter (fun p => decide (pmin ≤ prominence x p))

/-- FVGStrategy.get_swing_points: swing-high flags from peaks of High and
swing-low flags from peaks of -Low, both with distance = swing_lookback
and prominence floor = atr.mean() * 0.5. -/
def get_swing_points (high low atr : List ℚ) (lookback : ℕ) :
    List Bool × List Bool :=
  let pr := colMean atr * (1 / 2)
  let hp := find_peaks high lookback pr
  let lp := find_peaks (low.map (fun v => -v)) lookback pr
  ((List.range high.length).map (fun i => decide (i ∈ hp)),
   (List.range low.length).map (fun i => decide (i ∈ lp)))

/-! ### Order block identifier (FVGStrategy.get_order_blocks)

The source marks a bullish order block at swing-high index i when
Close.shift(1) < Open.shift(1) there, and stores
df.loc[idx].shift(1)['High'] — a shift of the row across the column axis,
which under the open/high/low/close column layout of the history frame
yields the value of the column preceding High, i.e. the swing candle's own
Open (for the bearish block, the column preceding Low, i.e. its High). -/

/-- Column bullish_ob: at a swing high whose previous candle closed below
its open, the row-shifted cell (the swing candle's Open); NaN elsewhere. -/
def bullish_ob_col (swingH : List Bool) (o c : List ℚ) : List (Option ℚ) :=
  (List.range o.length).map (fun i =>
    if swingH.getD i false && decide (1 ≤ i)
        && decide (c.getD (i - 1) 0 < o.getD (i - 1) 0)
    then some (o.getD i 0) else none)

/-- Column bearish_ob: at a swing low whose previous candle closed above
its open, the row-shifted cell (the swing candle's High); NaN elsewhere. -/
def bearish_ob_col (swingL : List Bool) (o h c : List ℚ) : List (Option ℚ) :=
  (List.range o.length).map (fun i =>
    if swingL.getD i false && decide (1 ≤ i)
        && decide (o.getD (i - 1) 0 < c.getD (i - 1) 0)
    then some (h.getD i 0) else none)

/-- Last non-NaN value of a column prefix (.dropna().iloc[-1]). -/
def lastSome (l : List (Option ℚ)) : Option ℚ :=
  l.foldl (fun acc x => match x with | some v => some v | none => acc) none

/-! ### Signal evaluator (is_fvg_near_order_block / check_entry_conditions) -/

/-- Swing-high flags of a dataframe, via get_swing_points. -/
def swingHighFlags (d : Df) (lookback : ℕ) : List Bool :=
  (get_swing_points d.High d.Low d.atr lookback).1

/-- Swing-low flags of a dataframe, via get_swing_points. -/
def swingLowFlags (d : Df) (lookback : ℕ) : List Bool :=
  (get_swing_points d.High d.Low d.atr lookback).2

/-- FVGStrategy.is_fvg_near_order_block: the last order-block value at or
before the FVG candle must lie within atr.mean() * proximity_percent of the
gap boundary.  A NaN gap boundary (flag not set) compares false. -/
def is_fvg_near_order_block (cfg : Config) (d : Df) (i : ℕ)
    (is_bullish : Bool) : Bool :=
  let range := colMean d.atr * cfg.order_block_proximity_percent
  if is_bullish then
    match lastSome ((bullish_ob_col (swingHighFlags d cfg.swing_lookback)
        d.Open d.Close).take (i + 1)) with
    | none => false
    | some v =>
      match bullish_fvg_bottom d.Open d.High d.Low d.Close i with
      | none => false
      | some b => decide (|b - v| ≤ range)
  else
    match lastSome ((bearish_ob_col (swingLowFlags d cfg.swing_lookback)
        d.Open d.High d.Close).take (i + 1)) with
    | none => false
    | some v =>
      match bearish_fvg_top d.Open d.High d.Low d.Close i with
      | none => false
      | some t => decide (|t - v| ≤ range)

/-- Guard of the long branch of check_entry_conditions: live bullish FVG on
the second-to-last candle, proximity to a bullish order block, close above
vwap or ema200, and the last candle breaking the FVG candle's high. -/
def bullishEntrySignal (cfg : Config) (d : Df) : Bool :=
  let n := d.Close.length
  decide (3 ≤ n) && bullish_fvg d.Open d.High d.Low d.Close (n - 2)
    && is_fvg_near_order_block cfg d (n - 2) true
    && (decide (d.vwap.getD (n - 2) 0 < d.Close.getD (n - 2) 0)
        || decide (d.ema200.getD (n - 2) 0 < d.Close.getD (n - 2) 0))
    && decide (d.High.getD (n - 2) 0 < d.High.getD (n - 1) 0)

/-- Guard of the short branch of check_entry_conditions (full mirror). -/
def bearishEntrySignal (cfg : Config) (d : Df) : Bool :=
  let n := d.Close.length
  decide (3 ≤ n) && bearish_fvg d.Open d.High d.Low d.Close (n - 2)
    && is_fvg_near_order_block cfg d (n - 2) false
    && (decide (d.Close.getD (n - 2) 0 < d.vwap.getD (n - 2) 0)
        || decide (d.Close.getD (n - 2) 0 < d.ema200.getD (n - 2) 0))
    && decide (d.Low.getD (n - 1) 0 < d.Low.getD (n - 2) 0)

/-! ### Order placement (FVGStrategy._place_basket_order) -/

/-- The basket of three order requests built by _place_basket_order:
a stop entry, a protective stop on the opposite side, a limit target. -/
def basket_orders (sym : String) (tt : TransactionType) (qty entry sl tg : ℚ) :
    List OrderRequest :=
  let sltt := if tt = TransactionType.BUY then TransactionType.SELL
              else TransactionType.BUY
  [{ symbol := sym, transaction_type := tt, quantity := qty,
     order_type := OrderType.STOP, price := entry, stop_price := some entry },
   { symbol := sym, transaction_type := sltt, quantity := qty,
     order_type := OrderType.STOP, price := sl, stop_price := some sl },
   { symbol := sym, transaction_type := sltt, quantity := qty,
     order_type := OrderType.LIMIT, price := tg, stop_price := none }]

/-- Oracle modelling broker.place_basket_orders; an error value models a
raised exception. -/
abbrev BasketOracle := List OrderRequest → Except Unit (List OrderResponse)

/-- FVGStrategy._place_basket_order: a no-op when the symbol already has a
record; otherwise a record is created in ATTEMPTING, the basket is
submitted, and the record moves to PENDING_ENTRY with the three order ids
when the first response is ok, and to FAILED when the broker raises, the
first response is not ok, or the response list is too short (the IndexError
is caught by the surrounding except).  Returns the updated map and the list
of submitted baskets. -/
def place_basket_order (oracle : BasketOracle) (pos : PosMap) (sym : String)
    (tt : TransactionType) (entry sl tg : ℚ) (ptype : String) (qty : ℚ) :
    PosMap × List (List OrderRequest) :=
  if (findPos pos sym).isSome then (pos, [])
  else
    let p0 : Position :=
      { order_id := none, sl_order_id := none, target_order_id := none,
        entry_price := entry, stop_loss := sl, target := tg,
        status := Status.ATTEMPTING, type := ptype }
    let basket := basket_orders sym tt qty entry sl tg
    let p1 :=
      match oracle basket with
      | Except.error _ => { p0 with status := Status.FAILED }
      | Except.ok rs =>
        match rs.get? 0, rs.get? 1, rs.get? 2 with
        | some r0, some r1, some r2 =>
          if r0.status = "ok" then
            { p0 with
              status := Status.PENDING_ENTRY
              order_id := some r0.order_id
              sl_order_id := some r1.order_id
              target_order_id := some r2.order_id }
          else { p0 with status := Status.FAILED }
        | some r0, some r1, none =>
          if r0.status = "ok" then
            { p0 with
              status := Status.FAILED
              order_id := some r0.order_id
              sl_order_id := some r1.order_id }
          else { p0 with status := Status.FAILED }
        | some r0, none, _ =>
          if r0.status = "ok" then
            { p0 with status := Status.FAILED, order_id := some r0.order_id }
          else { p0 with status := Status.FAILED }
        | none, _, _ => { p0 with status := Status.FAILED }
    (pos ++ [(sym, p1)], [basket])

/-- FVGStrategy.check_entry_conditions: nothing below 3 candles; the long
branch fires first and the short branch then runs on the updated map (so a
second placement for the same symbol is a guarded no-op). -/
def check_entry_conditions (cfg : Config) (oracle : BasketOracle) (d : Df)
    (sym : String) (pos : PosMap) : PosMap × List (List OrderRequest) :=
  if d.Close.length < 3 then (pos, [])
  else
    let n := d.Close.length
    let entryL := d.High.getD (n - 2) 0
    let slL := d.Low.getD (n - 2) 0
    let r1 :=
      if bullishEntrySignal cfg d then
        place_basket_order oracle pos sym TransactionType.BUY entryL slL
          (entryL + (entryL - slL) * cfg.risk_reward_ratio) "LONG" cfg.lot_size
      else (pos, [])
    let entryS := d.Low.getD (n - 2) 0
    let slS := d.High.getD (n - 2) 0
    let r2 :=
      if bearishEntrySignal cfg d then
        place_basket_order oracle r1.1 sym TransactionType.SELL entryS slS
          (entryS - (slS - entryS) * cfg.risk_reward_ratio) "SHORT" cfg.lot_size
      else (r1.1, [])
    (r2.1, r1.2 ++ r2.2)

/-- Per-symbol body of FVGStrategy.analyze_and_trade: a symbol that already
has a record (any status) is skipped before any data is fetched; a symbol
with no history data is skipped; otherwise the prepared frame goes through
check_entry_conditions. -/
def analyzeSymbol (cfg : Config) (oracle : BasketOracle) (data : Option Df)
    (sym : String) (pos : PosMap) : PosMap × List (List OrderRequest) :=
  if (findPos pos sym).isSome then (pos, [])
  else
    match data with
    | none => (pos, [])
    | some d => check_entry_conditions cfg oracle d sym pos

/-! ### Position reconciliation (FVGStrategy.manage_positions)

broker.get_order_status is an oracle returning the status string or an
error (a raised exception).  The source has no try/except in
manage_positions, so an error aborts the loop over positions; the record
being processed keeps whatever mutations happened before the raise.  The
result of one reconciliation step is the updated record, the list of
order ids passed to broker.cancel_order, and the propagated error if any. -/

/-- Oracle modelling broker.get_order_status. -/
abbrev StatusOracle := ℕ → Except Unit String

/-- The OPEN block of the per-record reconciliation: a stop fill closes to
CLOSED_SL and cancels the target; otherwise a target fill closes to
CLOSED_TARGET and cancels the stop.  Runs on the record as updated by the
PENDING_ENTRY block, since the source has no elif between the blocks. -/
def openExitStep (g : StatusOracle) (q : Position) (cs : List ℕ) :
    Position × List ℕ × Option Unit :=
  if q.status = Status.OPEN then
    match g (q.sl_order_id.getD 0) with
    | Except.error e => (q, cs, some e)
    | Except.ok s =>
      if s = "FILLED" then
        ({ q with status := Status.CLOSED_SL },
         cs ++ [q.target_order_id.getD 0], none)
      else
        match g (q.target_order_id.getD 0) with
        | Except.error e => (q, cs, some e)
        | Except.ok t =>
          if t = "FILLED" then
            ({ q with status := Status.CLOSED_TARGET },
             cs ++ [q.sl_order_id.getD 0], none)
          else (q, cs, none)
  else (q, cs, none)

/-- Reconciliation of one record: the PENDING_ENTRY block followed by the
OPEN block on the updated record. -/
def reconcilePosition (g : StatusOracle) (p : Position) :
    Position × List ℕ × Option Unit :=
  if p.status = Status.PENDING_ENTRY then
    match g (p.order_id.getD 0) with
    | Except.error e => (p, [], some e)
    | Except.ok s =>
      if s = "FILLED" then openExitStep g { p with status := Status.OPEN } []
      else if s = "REJECTED" ∨ s = "CANCELLED" then
        openExitStep g { p with status := Status.FAILED }
          [p.sl_order_id.getD 0, p.target_order_id.getD 0]
      else openExitStep g p []
  else openExitStep g p []

/-- FVGStrategy.manage_positions: every record is reconciled in insertion
order; a raised broker error propagates, leaving the remaining records
unprocessed (and, via run(), crashing the scheduler loop). -/
def managePositions (g : StatusOracle) :
    PosMap → PosMap × List ℕ × Option Unit
  | [] => ([], [], none)
  | (s, p) :: rest =>
    let (p1, cs, err) := reconcilePosition g p
    match err with
    | some e => ((s, p1) :: rest, cs, some e)
    | none =>
      let (rest1, cs1, err1) := managePositions g rest
      ((s, p1) :: rest1, cs ++ cs1, err1)

/-! ### Cycle driver (the per-symbol slice of FVGStrategy.run) -/

/-- External inputs of one scheduler cycle for one symbol: the prepared
history frame (none models an empty history response), the basket oracle
and the order-status oracle. -/
structure CycleInput where
  data : Option Df
  basketOracle : BasketOracle
  statusOracle : StatusOracle

/-- One scheduler cycle restricted to one symbol: analyze_and_trade (the
membership guard plus entry logic) followed by manage_positions. -/
def cycleStep (cfg : Config) (cyc : CycleInput) (sym : String) (pos : PosMap) :
    PosMap × List (List OrderRequest) :=
  let (pos1, subs) := analyzeSymbol cfg cyc.basketOracle cyc.data sym pos
  let (pos2, _, _) := managePositions cyc.statusOracle pos1
  (pos2, subs)

/-- Any number of scheduler cycles, accumulating the submitted baskets. -/
def runCycles (cfg : Config) (sym : String) :
    List CycleInput → PosMap → PosMap × List (List OrderRequest)
  | [], pos => (pos, [])
  | cyc :: rest, pos =>
    let (p1, s1) := cycleStep cfg cyc sym pos
    let (p2, s2) := runCycles cfg sym rest p1
    (p2, s1 ++ s2)

/-! ### Specification-side definitions

These definitions follow the wording of the specification (and of the
claims derived from it); the theorems below compare them with the embedded
source behaviour. -/

/-- The transition edges named by the spec state machine (the spec's
CLOSED_STOP is the stop-loss closure state, CLOSED_SL in the source). -/
def allowedStep (a b : Status) : Bool :=
  match a, b with
  | Status.ATTEMPTING, Status.PENDING_ENTRY => true
  | Status.ATTEMPTING, Status.FAILED => true
  | Status.PENDING_ENTRY, Status.OPEN => true
  | Status.PENDING_ENTRY, Status.FAILED => true
  | Status.OPEN, Status.CLOSED_SL => true
  | Status.OPEN, Status.CLOSED_TARGET => true
  | _, _ => false

/-- Chains of allowed transitions (one reconciliation pass may advance a
record through several allowed edges, e.g. PENDING_ENTRY to OPEN to
CLOSED_SL). -/
abbrev AllowedPath : Status → Status → Prop :=
  Relation.ReflTransGen (fun a b => allowedStep a b = true)

/-- Signed body-return of a candle, in the words of the spec:
(close − open) / open · 100. -/
def specBodyReturn (o c : List ℚ) (i : ℕ) : ℚ :=
  (c.getD i 0 - o.getD i 0) / o.getD i 0 * 100

/-- Momentum threshold in the words of the spec: the expanding mean of
absolute body-returns up to candle i, scaled by the configured fraction
0.8. -/
def specMomentumThreshold (o c : List ℚ) (i : ℕ) : ℚ :=
  ((∑ j ∈ Finset.range (i + 1), |specBodyReturn o c j|) / (i + 1)) * (8 / 10)

/-- Most recent down candle strictly before index i (spec: scan backward
from the swing index for the most recent candle whose close is below its
open); none when no such candle exists. -/
def lastDownCandleIdx (o c : List ℚ) : ℕ → Option ℕ
  | 0 => none
  | j + 1 =>
    if c.getD j 0 < o.getD j 0 then some j else lastDownCandleIdx o c j

/-! ### Concrete fixtures used by witnesses and counterexamples -/

/-- Configuration used by concrete evaluations: lookback 5, proximity 0.5,
risk/reward 1, lot size 1 (the values of the unit-test configuration). -/
def cfgT : Config :=
  { swing_lookback := 5, order_block_proximity_percent := 1 / 2,
    risk_reward_ratio := 1, lot_size := 1 }

/-- Candle frame on which the long entry of check_entry_conditions fires:
swing high at index 1 preceded by a down candle (bullish order block),
bullish FVG on candle 6 (Low 11 > High[4] = 10 with strong momentum on
candle 5), close above vwap, and candle 7 breaking candle 6's high. -/
def dfT : Df :=
  { Open := [10, 10, 10, 10, 10, 10, 12, 16]
    High := [10, 20, 10, 10, 10, 14, 16, 17]
    Low := [9, 9, 9, 9, 9, 9, 11, 12]
    Close := [99 / 10, 10, 10, 10, 10, 14, 15, 17]
    ema200 := [0, 0, 0, 0, 0, 0, 0, 0]
    vwap := [0, 0, 0, 0, 0, 0, 0, 0]
    atr := [2, 2, 2, 2, 2, 2, 2, 2] }

/-- Broker oracle answering every basket with three ok responses. -/
def okOracle : BasketOracle :=
  fun _ => Except.ok [⟨"ok", 11⟩, ⟨"ok", 12⟩, ⟨"ok", 13⟩]

/-- Status oracle reporting every order as still pending. -/
def pendingOracle : StatusOracle := fun _ => Except.ok "PENDING"

/-- An OPEN long position, entry 100, stop 90, target 120 (midpoint 110):
any quote above 110 counts as past the midpoint. -/
def posOpenT : Position :=
  { order_id := some 1, sl_order_id := some 2, target_order_id := some 3,
    entry_price := 100, stop_loss := 90, target := 120,
    status := Status.OPEN, type := "LONG" }

/-- A position whose entry order is awaiting its fill. -/
def posPendA : Position :=
  { order_id := some 1, sl_order_id := some 2, target_order_id := some 3,
    entry_price := 100, stop_loss := 90, target := 120,
    status := Status.PENDING_ENTRY, type := "LONG" }

/-- A second pending position with distinct order ids. -/
def posPendB : Position :=
  { order_id := some 4, sl_order_id := some 5, target_order_id := some 6,
    entry_price := 50, stop_loss := 45, target := 60,
    status := Status.PENDING_ENTRY, type := "LONG" }

/-- A position that reached its target (terminal). -/
def posClosedT : Position :=
  { order_id := some 1, sl_order_id := some 2, target_order_id := some 3,
    entry_price := 100, stop_loss := 90, target := 120,
    status := Status.CLOSED_TARGET, type := "LONG" }

/-- Status oracle that raises on order 1 and fills order 4: polling the
first pending position raises mid-loop. -/
def raisingOracle : StatusOracle :=
  fun n =>
    if n = 1 then Except.error ()
    else if n = 4 then Except.ok "FILLED" else Except.ok "PENDING"

/-! ### Helper lemmas -/

/-- List-sum over an initial segment agrees with the Finset sum. -/
lemma sum_map_range_eq (f : ℕ → ℚ) (n : ℕ) :
    ((List.range n).map f).sum = ∑ j ∈ Finset.range n, f j := by
  induction n with
  | zero => simp
  | succ n ih => rw [List.range_succ]; simp [Finset.sum_range_succ, ih]

/-- The source momentum threshold is the spec momentum threshold. -/
lemma fvg_threshold_eq_spec (o c : List ℚ) (i : ℕ) :
    fvg_threshold o c i = specMomentumThreshold o c i := by
  unfold fvg_threshold specMomentumThreshold
  rw [sum_map_range_eq]
  rfl

/-! ### Claim theorems -/

unseal Rat.add Rat.mul Rat.sub Rat.inv

/-- C5.  The FVG detector flags a live bullish gap at i (i ≥ 2) iff
low[i] > high[i-2] and the previous candle's signed body-return exceeds the
expanding mean of absolute body-returns up to that candle scaled by 0.8,
with the bearish mirror; and on the concrete series of the claim the
bullish flag is true and the bearish flag is false at index 3. -/
theorem C5_fvg_detector (o h l c : List ℚ) (i : ℕ) (hi : 2 ≤ i) :
    (bullish_fvg o h l c i = true ↔
      h.getD (i - 2) 0 < l.getD i 0 ∧
        specMomentumThreshold o c (i - 1) < specBodyReturn o c (i - 1)) ∧
    (bearish_fvg o h l c i = true ↔
      h.getD i 0 < l.getD (i - 2) 0 ∧
        specBodyReturn o c (i - 1) < -specMomentumThreshold o c (i - 1)) ∧
    bullish_fvg [98, 100, 102, 109, 111] [100, 102, 105, 112, 115]
      [98, 100, 101, 108, 110] [99, 101, 104, 110, 114] 3 = true ∧
    bearish_fvg [98, 100, 102, 109, 111] [100, 102, 105, 112, 115]
      [98, 100, 101, 108, 110] [99, 101, 104, 110, 114] 3 = false := by
  refine ⟨?_, ?_, ?_, ?_⟩
  · unfold bullish_fvg
    rw [fvg_threshold_eq_spec]
    simp [hi, specBodyReturn, bar_delta_percent]
  · unfold bearish_fvg
    rw [fvg_threshold_eq_spec]
    simp [hi, specBodyReturn, bar_delta_percent]
  · decide
  · decide

/-- Witness for C5 at the concrete series of the claim: the equivalence at
index 3, instantiated and combined with the evaluated flag. -/
theorem C5_fvg_detector_witness :
    bullish_fvg [98, 100, 102, 109, 111] [100, 102, 105, 112, 115]
      [98, 100, 101, 108, 110] [99, 101, 104, 110, 114] 3 = true ↔
    ([100, 102, 105, 112, 115] : List ℚ).getD 1 0 <
        ([98, 100, 101, 108, 110] : List ℚ).getD 3 0 ∧
      specMomentumThreshold [98, 100, 102, 109, 111] [99, 101, 104, 110, 114] 2 <
        specBodyReturn [98, 100, 102, 109, 111] [99, 101, 104, 110, 114] 2 :=
  (C5_fvg_detector [98, 100, 102, 109, 111] [100, 102, 105, 112, 115]
    [98, 100, 101, 108, 110] [99, 101, 104, 110, 114] 3 (by decide)).1

/-- C6 (code bug evidence).  First series: a swing high at index 3 whose
previous candle is up but whose candle 1 is down — the spec requires a
bullish block from candle 1, the code emits none.  Second series: a swing
high at index 2 with a down candle at 1 — the code does record a block, but
its stored level is the swing candle's own Open (7), not the down candle's
high (13), because df.loc[idx].shift(1) shifts the row across columns. -/
theorem C6_order_block_divergence :
    (bullish_ob_col [false, false, false, true] [10, 12, 9, 8]
        [9, 11, 10, 9]).getD 3 none = none ∧
    lastDownCandleIdx [10, 12, 9, 8] [9, 11, 10, 9] 3 = some 1 ∧
    (bullish_ob_col [false, false, true] [10, 12, 7] [9, 11, 8]).getD 2 none
      = some 7 ∧
    lastDownCandleIdx [10, 12, 7] [9, 11, 8] 2 = some 1 ∧
    ([11, 13, 9] : List ℚ).getD 1 0 = 13 ∧ (7 : ℚ) ≠ 13 := by
  decide

/-- C2 (counterexample).  An OPEN position with stop 90 ≠ entry 100 and
midpoint 110 < 111 (price past the midpoint): one management cycle in which
both exit orders are still pending leaves the record completely unchanged
and cancels nothing — no breakeven repricing exists in the source (the
management pass does not even consult a price). -/
theorem C2_breakeven_cex :
    reconcilePosition pendingOracle posOpenT = (posOpenT, [], none) ∧
    posOpenT.stop_loss ≠ posOpenT.entry_price ∧
    (posOpenT.entry_price + posOpenT.target) / 2 < 111 := by
  decide

/-- C2 (amended).  The management cycle never adjusts a position's prices
or order ids: reconciliation only changes the status field, so no
breakeven repricing of the stop to entry ever happens. -/
theorem C2_no_breakeven_amended (g : StatusOracle) (p : Position) :
    ((reconcilePosition g p).1).entry_price = p.entry_price ∧
    ((reconcilePosition g p).1).stop_loss = p.stop_loss ∧
    ((reconcilePosition g p).1).target = p.target ∧
    ((reconcilePosition g p).1).order_id = p.order_id ∧
    ((reconcilePosition g p).1).sl_order_id = p.sl_order_id ∧
    ((reconcilePosition g p).1).target_order_id = p.target_order_id := by
  unfold reconcilePosition openExitStep
  repeat' split
  all_goals simp_all

/-- C8 (code bug evidence).  Two pending positions; polling the first one's
entry order raises.  manage_positions propagates the error: the first
record is untouched (that much matches the claim) but the second record is
left unreconciled — even though reconciling it directly with the same
broker answers would have moved it to OPEN — and the error escapes to
run(), which has no handler. -/
theorem C8_reconciliation_not_isolated :
    managePositions raisingOracle [("A", posPendA), ("B", posPendB)]
      = ([("A", posPendA), ("B", posPendB)], [], some ()) ∧
    ((reconcilePosition raisingOracle posPendB).1).status = Status.OPEN := by
  decide

/-! ### State machine helpers -/

/-- The OPEN block leaves any record not in OPEN untouched. -/
lemma openExitStep_not_open (g : StatusOracle) (q : Position) (cs : List ℕ)
    (h : q.status ≠ Status.OPEN) : openExitStep g q cs = (q, cs, none) := by
  unfold openExitStep
  simp [h]

/-- The OPEN block only follows allowed transition edges. -/
lemma openExitStep_path (g : StatusOracle) (q : Position) (cs : List ℕ) :
    AllowedPath q.status (((openExitStep g q cs).1).status) := by
  by_cases h : q.status = Status.OPEN
  · unfold openExitStep
    rw [if_pos h]
    rcases hg : g (q.sl_order_id.getD 0) with e | s
    · simp only [hg]
      exact Relation.ReflTransGen.refl
    · simp only [hg]
      by_cases hs : s = "FILLED"
      · rw [if_pos hs]
        exact Relation.ReflTransGen.single (by rw [h]; rfl)
      · rw [if_neg hs]
        rcases hg2 : g (q.target_order_id.getD 0) with e | t
        · simp only [hg2]
          exact Relation.ReflTransGen.refl
        · simp only [hg2]
          by_cases ht : t = "FILLED"
          · rw [if_pos ht]
            exact Relation.ReflTransGen.single (by rw [h]; rfl)
          · rw [if_neg ht]
  · rw [openExitStep_not_open g q cs h]

/-- One reconciliation pass only follows chains of allowed transitions. -/
lemma reconcilePosition_path (g : StatusOracle) (p : Position) :
    AllowedPath p.status (((reconcilePosition g p).1).status) := by
  unfold reconcilePosition
  by_cases hp : p.status = Status.PENDING_ENTRY
  · rw [if_pos hp]
    rcases hg : g (p.order_id.getD 0) with e | s
    · simp only [hg]
      exact Relation.ReflTransGen.refl
    · simp only [hg]
      by_cases hs : s = "FILLED"
      · rw [if_pos hs]
        refine Relation.ReflTransGen.head (by rw [hp]; rfl)
          (openExitStep_path g { p with status := Status.OPEN } [])
      · rw [if_neg hs]
        by_cases hr : s = "REJECTED" ∨ s = "CANCELLED"
        · rw [if_pos hr, openExitStep_not_open g
            { p with status := Status.FAILED } _ (by simp)]
          exact Relation.ReflTransGen.single (by rw [hp]; rfl)
        · rw [if_neg hr, openExitStep_not_open g p [] (by rw [hp]; simp)]
  · rw [if_neg hp]
    exact openExitStep_path g p []

/-- A terminal record passes through reconciliation untouched. -/
lemma reconcilePosition_terminal (g : StatusOracle) (p : Position)
    (h : terminalStatus p.status = true) :
    reconcilePosition g p = (p, [], none) := by
  have h1 : p.status ≠ Status.PENDING_ENTRY := by
    cases hs : p.status <;> simp_all [terminalStatus]
  have h2 : p.status ≠ Status.OPEN := by
    cases hs : p.status <;> simp_all [terminalStatus]
  unfold reconcilePosition
  rw [if_neg h1, openExitStep_not_open g p [] h2]

/-- manage_positions preserves the set and order of symbols. -/
lemma managePositions_keys (g : StatusOracle) (pm : PosMap) :
    ((managePositions g pm).1).map Prod.fst = pm.map Prod.fst := by
  induction pm with
  | nil => rfl
  | cons hd tl ih =>
    obtain ⟨s, p⟩ := hd
    rcases hr : reconcilePosition g p with ⟨p1, cs, err⟩
    rcases err with _ | e <;> simp [managePositions, hr, ih]

/-- A terminal record survives manage_positions unchanged, wherever it sits
in the dictionary (before or after an aborting error). -/
lemma managePositions_terminal_mem (g : StatusOracle) (pm : PosMap)
    (s : String) (p : Position) (hm : (s, p) ∈ pm)
    (ht : terminalStatus p.status = true) :
    (s, p) ∈ (managePositions g pm).1 := by
  induction pm with
  | nil => cases hm
  | cons hd tl ih =>
    obtain ⟨s0, p0⟩ := hd
    rcases List.mem_cons.mp hm with heq | htl
    · injection heq with h1 h2
      subst h1
      subst h2
      simp [managePositions, reconcilePosition_terminal g p ht]
    · rcases hr : reconcilePosition g p0 with ⟨p1, cs, err⟩
      rcases err with _ | e
      · simp only [managePositions, hr]
        exact List.mem_cons_of_mem _ (ih htl)
      · simp only [managePositions, hr]
        exact List.mem_cons_of_mem _ htl

/-- Placement is a no-op when the symbol already has a record. -/
lemma place_basket_order_member (oracle : BasketOracle) (pos : PosMap)
    (sym : String) (tt : TransactionType) (e sl tg : ℚ) (ty : String) (q : ℚ)
    (h : (findPos pos sym).isSome) :
    place_basket_order oracle pos sym tt e sl tg ty q = (pos, []) := by
  unfold place_basket_order
  simp [h]

/-- Placement on a fresh symbol appends exactly one record, submits exactly
the basket, and the new record's status is one allowed step from
ATTEMPTING (PENDING_ENTRY or FAILED). -/
lemma place_basket_order_new (oracle : BasketOracle) (pos : PosMap)
    (sym : String) (tt : TransactionType) (e sl tg : ℚ) (ty : String) (q : ℚ)
    (h : findPos pos sym = none) :
    ∃ p, place_basket_order oracle pos sym tt e sl tg ty q
        = (pos ++ [(sym, p)], [basket_orders sym tt q e sl tg])
      ∧ allowedStep Status.ATTEMPTING p.status = true := by
  unfold place_basket_order
  rw [h]
  refine ⟨_, rfl, ?_⟩
  repeat' split
  all_goals rfl

/-- C1.  The position state machine admits only the specified transitions:
reconciliation moves a record only along chains of the allowed edges
(ATTEMPTING to PENDING_ENTRY or FAILED, PENDING_ENTRY to OPEN or FAILED,
OPEN to CLOSED_SL — the spec's CLOSED_STOP — or CLOSED_TARGET); a terminal
record is returned untouched by reconciliation, survives manage_positions
unchanged, and order placement never touches an existing record (it is a
no-op on a held symbol, and on a fresh symbol it creates a record whose
final status is one allowed step from ATTEMPTING). -/
theorem C1_position_state_machine :
    (∀ g p, AllowedPath p.status (((reconcilePosition g p).1).status)) ∧
    (∀ g p, terminalStatus p.status = true →
      reconcilePosition g p = (p, [], none)) ∧
    (∀ g pm s p, (s, p) ∈ pm → terminalStatus p.status = true →
      (s, p) ∈ (managePositions g pm).1) ∧
    (∀ oracle pos sym tt e sl tg ty q, (findPos pos sym).isSome →
      place_basket_order oracle pos sym tt e sl tg ty q = (pos, [])) ∧
    (∀ oracle pos sym tt e sl tg ty q, findPos pos sym = none →
      ∃ p, (place_basket_order oracle pos sym tt e sl tg ty q).1
          = pos ++ [(sym, p)]
        ∧ allowedStep Status.ATTEMPTING p.status = true) := by
  refine ⟨reconcilePosition_path, reconcilePosition_terminal,
    managePositions_terminal_mem, place_basket_order_member, ?_⟩
  intro oracle pos sym tt e sl tg ty q h
  obtain ⟨p, hp, hs⟩ := place_basket_order_new oracle pos sym tt e sl tg ty q h
  exact ⟨p, by rw [hp], hs⟩

/-- Witness for C1: a CLOSED_TARGET record is untouched by reconciliation,
and placement on its symbol is a no-op. -/
theorem C1_position_state_machine_witness :
    reconcilePosition pendingOracle posClosedT = (posClosedT, [], none) ∧
    place_basket_order okOracle [("MCX:GOLDM", posClosedT)] "MCX:GOLDM"
      TransactionType.BUY 1 1 1 "LONG" 1 = ([("MCX:GOLDM", posClosedT)], []) :=
  ⟨C1_position_state_machine.2.1 pendingOracle posClosedT (by decide),
   C1_position_state_machine.2.2.2.1 okOracle [("MCX:GOLDM", posClosedT)]
     "MCX:GOLDM" TransactionType.BUY 1 1 1 "LONG" 1 (by decide)⟩

/-! ### Dictionary and cycle helpers -/

/-- Key membership characterizes a successful lookup. -/
lemma findPos_isSome_iff_mem (pos : PosMap) (sym : String) :
    (findPos pos sym).isSome ↔ sym ∈ pos.map Prod.fst := by
  induction pos with
  | nil => simp [findPos]
  | cons hd tl ih =>
    obtain ⟨s, p⟩ := hd
    by_cases h : s = sym
    · subst h
      simp [findPos]
    · simp [findPos, h, ih, Ne.symm h]

/-- A record appended for a fresh symbol is then found. -/
lemma findPos_append_self (pos : PosMap) (sym : String) (p : Position) :
    (findPos (pos ++ [(sym, p)]) sym).isSome := by
  rw [findPos_isSome_iff_mem]
  simp

/-- A symbol with a record is skipped by the per-symbol analysis. -/
lemma analyzeSymbol_member (cfg : Config) (oracle : BasketOracle)
    (data : Option Df) (sym : String) (pos : PosMap)
    (h : (findPos pos sym).isSome) :
    analyzeSymbol cfg oracle data sym pos = (pos, []) := by
  unfold analyzeSymbol
  simp [h]

/-- While a record for the symbol exists, any number of scheduler cycles
submits no basket for it: the analysis guard skips the symbol and
manage_positions never removes keys. -/
lemma runCycles_no_subs (cfg : Config) (sym : String)
    (cycles : List CycleInput) (pos : PosMap)
    (h : (findPos pos sym).isSome) :
    (runCycles cfg sym cycles pos).2 = [] := by
  induction cycles generalizing pos with
  | nil => rfl
  | cons cyc rest ih =>
    have hstep : cycleStep cfg cyc sym pos
        = ((managePositions cyc.statusOracle pos).1, []) := by
      unfold cycleStep
      rw [analyzeSymbol_member cfg cyc.basketOracle cyc.data sym pos h]
    have hkeys : (findPos ((managePositions cyc.statusOracle pos).1) sym).isSome := by
      rw [findPos_isSome_iff_mem, managePositions_keys]
      exact (findPos_isSome_iff_mem pos sym).mp h
    simp [runCycles, hstep, ih _ hkeys]

/-- C3.  An instrument holding a non-terminal position record receives no
second entry order: over any number of cycles that may re-qualify a
signal, no basket is submitted for it while the record exists. -/
theorem C3_no_second_entry (cfg : Config) (sym : String)
    (cycles : List CycleInput) (pos : PosMap) (p : Position)
    (hfind : findPos pos sym = some p)
    (hnt : terminalStatus p.status = false) :
    (runCycles cfg sym cycles pos).2 = [] :=
  runCycles_no_subs cfg sym cycles pos (by rw [hfind]; rfl)

/-- Witness for C3: one full cycle over a pending position submits
nothing. -/
theorem C3_no_second_entry_witness :
    (runCycles cfgT "NSE:X" [⟨some dfT, okOracle, pendingOracle⟩]
      [("NSE:X", posPendA)]).2 = [] :=
  C3_no_second_entry cfgT "NSE:X" [⟨some dfT, okOracle, pendingOracle⟩]
    [("NSE:X", posPendA)] posPendA rfl (by decide)

/-- C4 (counterexample).  The qualifying frame dfT places a long basket
when the symbol is free, but with a CLOSED_TARGET (terminal) record in the
dictionary the same cycle is skipped entirely: terminal states do not free
the instrument, because records are never deleted and the analysis guard
tests bare membership. -/
theorem C4_terminal_frees_cex :
    analyzeSymbol cfgT okOracle (some dfT) "NSE:X" [("NSE:X", posClosedT)]
      = ([("NSE:X", posClosedT)], []) ∧
    (analyzeSymbol cfgT okOracle (some dfT) "NSE:X" []).2
      = [basket_orders "NSE:X" TransactionType.BUY 1 16 11 21] := by
  constructor
  · decide
  · decide

/-- C4 (amended).  A terminal status does not free the instrument: the
record persists, the analysis guard skips any symbol that has a record of
any status, and so no basket is ever submitted again for the instrument
over any number of cycles. -/
theorem C4_terminal_does_not_free (cfg : Config) (sym : String)
    (cycles : List CycleInput) (pos : PosMap) (p : Position)
    (hfind : findPos pos sym = some p)
    (ht : terminalStatus p.status = true) :
    (runCycles cfg sym cycles pos).2 = [] :=
  runCycles_no_subs cfg sym cycles pos (by rw [hfind]; rfl)

/-- Witness for C4: a cycle with the qualifying frame dfT and a terminal
record submits nothing. -/
theorem C4_terminal_does_not_free_witness :
    (runCycles cfgT "NSE:X" [⟨some dfT, okOracle, pendingOracle⟩]
      [("NSE:X", posClosedT)]).2 = [] :=
  C4_terminal_does_not_free cfgT "NSE:X" [⟨some dfT, okOracle, pendingOracle⟩]
    [("NSE:X", posClosedT)] posClosedT rfl (by decide)

/-- Placement either leaves the dictionary unchanged with no submission,
or appends one fresh record and submits exactly one basket. -/
lemma place_basket_order_cases (oracle : BasketOracle) (pos : PosMap)
    (sym : String) (tt : TransactionType) (e sl tg : ℚ) (ty : String) (q : ℚ) :
    place_basket_order oracle pos sym tt e sl tg ty q = (pos, []) ∨
    ∃ p, place_basket_order oracle pos sym tt e sl tg ty q
        = (pos ++ [(sym, p)], [basket_orders sym tt q e sl tg]) := by
  cases hfp : findPos pos sym with
  | none =>
    obtain ⟨p, hp, _⟩ := place_basket_order_new oracle pos sym tt e sl tg ty q hfp
    exact Or.inr ⟨p, hp⟩
  | some p0 =>
    exact Or.inl (place_basket_order_member oracle pos sym tt e sl tg ty q
      (by rw [hfp]; rfl))

/-- C10.  One cycle of entry evaluation submits at most one basket per
instrument; when the long branch qualifies on a free symbol, the submitted
basket is exactly the long basket (the short branch, evaluated second on
the updated dictionary, is a guarded no-op rather than an error); a
placement for a symbol that already holds a record returns without any
submission. -/
theorem C10_at_most_one_basket :
    (∀ cfg oracle d sym pos,
      ((check_entry_conditions cfg oracle d sym pos).2).length ≤ 1) ∧
    (∀ cfg oracle d sym pos, findPos pos sym = none →
      bullishEntrySignal cfg d = true →
      (check_entry_conditions cfg oracle d sym pos).2
        = [basket_orders sym TransactionType.BUY cfg.lot_size
            (d.High.getD (d.Close.length - 2) 0)
            (d.Low.getD (d.Close.length - 2) 0)
            (d.High.getD (d.Close.length - 2) 0
              + (d.High.getD (d.Close.length - 2) 0
                  - d.Low.getD (d.Close.length - 2) 0)
                * cfg.risk_reward_ratio)]) ∧
    (∀ oracle pos sym tt e sl tg ty q, (findPos pos sym).isSome →
      place_basket_order oracle pos sym tt e sl tg ty q = (pos, [])) := by
  refine ⟨?_, ?_, place_basket_order_member⟩
  · intro cfg oracle d sym pos
    unfold check_entry_conditions
    by_cases hn : d.Close.length < 3
    · rw [if_pos hn]
      simp
    · rw [if_neg hn]
      dsimp only
      by_cases hb : bullishEntrySignal cfg d = true
      · rw [if_pos hb]
        cases hfp : findPos pos sym with
        | none =>
          obtain ⟨p, hpl, _⟩ := place_basket_order_new oracle pos sym
            TransactionType.BUY _ _ _ "LONG" cfg.lot_size hfp
          rw [hpl]
          by_cases hbe : bearishEntrySignal cfg d = true
          · rw [if_pos hbe]
            rw [place_basket_order_member oracle _ sym TransactionType.SELL
              _ _ _ "SHORT" cfg.lot_size (findPos_append_self pos sym p)]
            simp
          · rw [if_neg hbe]
            simp
        | some p0 =>
          have hpm : (findPos pos sym).isSome := by rw [hfp]; rfl
          rw [place_basket_order_member oracle pos sym TransactionType.BUY
            _ _ _ "LONG" cfg.lot_size hpm]
          by_cases hbe : bearishEntrySignal cfg d = true
          · rw [if_pos hbe]
            rw [place_basket_order_member oracle pos sym TransactionType.SELL
              _ _ _ "SHORT" cfg.lot_size hpm]
            simp
          · rw [if_neg hbe]
            simp
      · rw [if_neg hb]
        by_cases hbe : bearishEntrySignal cfg d = true
        · rw [if_pos hbe]
          rcases place_basket_order_cases oracle pos sym TransactionType.SELL
            (d.Low.getD (d.Close.length - 2) 0)
            (d.High.getD (d.Close.length - 2) 0)
            (d.Low.getD (d.Close.length - 2) 0
              - (d.High.getD (d.Close.length - 2) 0
                  - d.Low.getD (d.Close.length - 2) 0)
                * cfg.risk_reward_ratio) "SHORT" cfg.lot_size
            with h | ⟨p, h⟩ <;> rw [h] <;> simp
        · rw [if_neg hbe]
          simp
  · intro cfg oracle d sym pos hfp hb
    have hn : ¬d.Close.length < 3 := by
      have h3 := (Bool.and_eq_true _ _).mp
        ((Bool.and_eq_true _ _).mp
          ((Bool.and_eq_true _ _).mp
            ((Bool.and_eq_true _ _).mp hb).1).1).1
      have := of_decide_eq_true h3.1
      omega
    unfold check_entry_conditions
    rw [if_neg hn]
    dsimp only
    rw [if_pos hb]
    obtain ⟨p, hpl, _⟩ := place_basket_order_new oracle pos sym
      TransactionType.BUY _ _ _ "LONG" cfg.lot_size hfp
    rw [hpl]
    by_cases hbe : bearishEntrySignal cfg d = true
    · rw [if_pos hbe]
      rw [place_basket_order_member oracle _ sym TransactionType.SELL
        _ _ _ "SHORT" cfg.lot_size (findPos_append_self pos sym p)]
      simp
    · rw [if_neg hbe]
      simp

/-- Witness for C10: on the qualifying frame dfT with a free symbol, the
submitted baskets are exactly the long basket. -/
theorem C10_at_most_one_basket_witness :
    (check_entry_conditions cfgT okOracle dfT "NSE:X" []).2
      = [basket_orders "NSE:X" TransactionType.BUY cfgT.lot_size
          (dfT.High.getD (dfT.Close.length - 2) 0)
          (dfT.Low.getD (dfT.Close.length - 2) 0)
          (dfT.High.getD (dfT.Close.length - 2) 0
            + (dfT.High.getD (dfT.Close.length - 2) 0
                - dfT.Low.getD (dfT.Close.length - 2) 0)
              * cfgT.risk_reward_ratio)] :=
  C10_at_most_one_basket.2.1 cfgT okOracle dfT "NSE:X" [] rfl (by decide)

/-! ### Swing spacing helpers -/

/-- One selection step never resurrects a removed peak. -/
lemma selStep_mono (d : ℕ) (keep : ℕ → Bool) (p k : ℕ)
    (h : selStep d keep p k = true) : keep k = true := by
  unfold selStep killRange at h
  by_cases hp : keep p = true
  · rw [if_pos hp] at h
    by_cases hc : k ≠ p ∧ k < p + d ∧ p < k + d
    · rw [if_pos hc] at h
      cases h
    · rwa [if_neg hc] at h
  · rwa [if_neg hp] at h

/-- The whole selection fold never resurrects a removed peak. -/
lemma foldl_selStep_mono (d : ℕ) (order : List ℕ) :
    ∀ (keep : ℕ → Bool) (k : ℕ),
      (order.foldl (selStep d) keep) k = true → keep k = true := by
  induction order with
  | nil => intro keep k h; exact h
  | cons p t ih =>
    intro keep k h
    rw [List.foldl_cons] at h
    exact selStep_mono d keep p k (ih (selStep d keep p) k h)

/-- A still-kept peak removes every distinct peak strictly within d. -/
lemma selStep_kills (d : ℕ) (keep : ℕ → Bool) (p k : ℕ)
    (hp : keep p = true) (hne : k ≠ p) (h1 : k < p + d) (h2 : p < k + d) :
    selStep d keep p k = false := by
  unfold selStep killRange
  rw [if_pos hp, if_pos ⟨hne, h1, h2⟩]

/-- After the selection fold, no two distinct peaks of the processing order
strictly within d of each other both survive. -/
lemma foldl_selStep_not_both (d : ℕ) (order : List ℕ) :
    ∀ (keep : ℕ → Bool) (i j : ℕ), i ∈ order → j ∈ order → i ≠ j →
      i < j + d → j < i + d →
      ¬((order.foldl (selStep d) keep) i = true ∧
        (order.foldl (selStep d) keep) j = true) := by
  induction order with
  | nil => intro keep i j hi; cases hi
  | cons p t ih =>
    intro keep i j hi hj hne h1 h2 hc
    obtain ⟨fi, fj⟩ := hc
    rw [List.foldl_cons] at fi fj
    rcases List.mem_cons.mp hi with rfl | hit
    · by_cases hkp : keep i = true
      · have hkill : selStep d keep i j = false :=
          selStep_kills d keep i j hkp (Ne.symm hne) h2 h1
        have := foldl_selStep_mono d t (selStep d keep i) j fj
        rw [hkill] at this
        cases this
      · have hsel : selStep d keep i = keep := by
          unfold selStep
          rw [if_neg hkp]
        have := foldl_selStep_mono d t (selStep d keep i) i fi
        rw [hsel] at this
        exact hkp this
    · rcases List.mem_cons.mp hj with rfl | hjt
      · by_cases hkp : keep j = true
        · have hkill : selStep d keep j i = false :=
            selStep_kills d keep j i hkp hne h1 h2
          have := foldl_selStep_mono d t (selStep d keep j) i fi
          rw [hkill] at this
          cases this
        · have hsel : selStep d keep j = keep := by
            unfold selStep
            rw [if_neg hkp]
          have := foldl_selStep_mono d t (selStep d keep j) j fj
          rw [hsel] at this
          exact hkp this
      · exact ih (selStep d keep p) i j hit hjt hne h1 h2 ⟨fi, fj⟩

/-- Membership is preserved by priority insertion. -/
lemma mem_insertByPriority (pri : ℕ → ℚ) (p : ℕ) (l : List ℕ) (a : ℕ) :
    a ∈ insertByPriority pri p l ↔ a = p ∨ a ∈ l := by
  induction l with
  | nil => simp [insertByPriority]
  | cons q rest ih =>
    unfold insertByPriority
    by_cases h : pri p < pri q
    · rw [if_pos h]
      simp
    · rw [if_neg h]
      simp only [List.mem_cons, ih]
      tauto

/-- Membership is preserved by the priority sort. -/
lemma mem_sortByPriority (pri : ℕ → ℚ) (l : List ℕ) (a : ℕ) :
    a ∈ sortByPriority pri l ↔ a ∈ l := by
  induction l with
  | nil => simp [sortByPriority]
  | cons q rest ih =>
    unfold sortByPriority
    rw [mem_insertByPriority]
    simp [ih]

/-- Two distinct survivors of the distance selection are at least d
apart. -/
lemma selectByPeakDistance_spacing (peaks : List ℕ) (pri : ℕ → ℚ) (d : ℕ)
    (i j : ℕ) (hi : i ∈ selectByPeakDistance peaks pri d)
    (hj : j ∈ selectByPeakDistance peaks pri d) (hne : i ≠ j) :
    j + d ≤ i ∨ i + d ≤ j := by
  unfold selectByPeakDistance at hi hj
  obtain ⟨hip, hik⟩ := List.mem_filter.mp hi
  obtain ⟨hjp, hjk⟩ := List.mem_filter.mp hj
  have hio : i ∈ (sortByPriority pri peaks).reverse := by
    rw [List.mem_reverse, mem_sortByPriority]
    exact hip
  have hjo : j ∈ (sortByPriority pri peaks).reverse := by
    rw [List.mem_reverse, mem_sortByPriority]
    exact hjp
  by_contra hcon
  push_neg at hcon
  exact foldl_selStep_not_both d ((sortByPriority pri peaks).reverse)
    (fun _ => true) i j hio hjo hne (by omega) (by omega)
    ⟨hik, hjk⟩

/-- Two distinct detected peaks are at least d apart. -/
lemma find_peaks_spacing (x : List ℚ) (d : ℕ) (pmin : ℚ) (i j : ℕ)
    (hi : i ∈ find_peaks x d pmin) (hj : j ∈ find_peaks x d pmin)
    (hne : i ≠ j) : j + d ≤ i ∨ i + d ≤ j := by
  unfold find_peaks at hi hj
  exact selectByPeakDistance_spacing (localMaxima x) (fun p => x.getD p 0) d
    i j (List.mem_filter.mp hi).1 (List.mem_filter.mp hj).1 hne

/-- A raised flag names a detected peak. -/
lemma flag_getD_mem (hp : List ℕ) (n i : ℕ)
    (h : ((List.range n).map (fun k => decide (k ∈ hp))).getD i false
      = true) : i ∈ hp := by
  by_cases hin : i < n
  · have hget : ((List.range n).map (fun k => decide (k ∈ hp)))[i]?
        = some (decide (i ∈ hp)) := by
      rw [List.getElem?_map, List.getElem?_range hin]
      rfl
    rw [List.getD_eq_getElem?_getD, hget] at h
    exact of_decide_eq_true h
  · have hlen : ((List.range n).map (fun k => decide (k ∈ hp))).length ≤ i := by
      simp [Nat.not_lt.mp hin]
    rw [List.getD_eq_getElem?_getD, List.getElem?_eq_none hlen] at h
    cases h

/-- C7 (counterexample).  On High = [0,5,4,6,7,8,10,9,0,0] with
lookback 5 and atr = 1, the detector flags swing highs at both index 1 and
index 6 — exactly lookback apart, so each lies within 5 bars of the other —
and High[4] = 7 exceeds the flagged High[1] = 5 inside its window: a
flagged swing high is neither isolated within the window (inclusive
reading) nor ≥ all highs within it. -/
theorem C7_swing_window_cex :
    (get_swing_points [0, 5, 4, 6, 7, 8, 10, 9, 0, 0]
      [1, 1, 1, 1, 1, 1, 1, 1, 1, 1] [1, 1, 1, 1, 1, 1, 1, 1, 1, 1] 5).1.getD
        1 false = true ∧
    (get_swing_points [0, 5, 4, 6, 7, 8, 10, 9, 0, 0]
      [1, 1, 1, 1, 1, 1, 1, 1, 1, 1] [1, 1, 1, 1, 1, 1, 1, 1, 1, 1] 5).1.getD
        6 false = true ∧
    6 - 1 ≤ 5 ∧
    ([0, 5, 4, 6, 7, 8, 10, 9, 0, 0] : List ℚ).getD 1 0
      < ([0, 5, 4, 6, 7, 8, 10, 9, 0, 0] : List ℚ).getD 4 0 := by
  refine ⟨by decide, by decide, by decide, by decide⟩

/-- C7 (amended).  Any two distinct detected swing highs (and any two
distinct detected swing lows) are at least swing_lookback bars apart — so
no other swing high lies strictly within the lookback window, though one
may sit exactly lookback bars away, and the flagged high need not dominate
all highs of the window; on the concrete series of the claim the flags are
exactly as stated (swing high only at index 2, swing low only at
index 6). -/
theorem C7_swing_point_spacing :
    (∀ (high low atr : List ℚ) (L i j : ℕ),
      (get_swing_points high low atr L).1.getD i false = true →
      (get_swing_points high low atr L).1.getD j false = true →
      i ≠ j → j + L ≤ i ∨ i + L ≤ j) ∧
    (∀ (high low atr : List ℚ) (L i j : ℕ),
      (get_swing_points high low atr L).2.getD i false = true →
      (get_swing_points high low atr L).2.getD j false = true →
      i ≠ j → j + L ≤ i ∨ i + L ≤ j) ∧
    get_swing_points [100, 105, 110, 105, 100, 98, 96, 95, 94, 93]
        [90, 95, 100, 95, 90, 85, 80, 82, 81, 83]
        [1, 1, 1, 1, 1, 1, 1, 1, 1, 1] 5
      = ([false, false, true, false, false, false, false, false, false,
          false],
         [false, false, false, false, false, false, true, false, false,
          false]) := by
  refine ⟨?_, ?_, by decide⟩
  · intro high low atr L i j hi hj hne
    unfold get_swing_points at hi hj
    exact find_peaks_spacing high L (colMean atr * (1 / 2)) i j
      (flag_getD_mem _ _ _ hi) (flag_getD_mem _ _ _ hj) hne
  · intro high low atr L i j hi hj hne
    unfold get_swing_points at hi hj
    exact find_peaks_spacing (low.map (fun v => -v)) L
      (colMean atr * (1 / 2)) i j
      (flag_getD_mem _ _ _ hi) (flag_getD_mem _ _ _ hj) hne

/-- Witness for C7: the two flags of the counterexample series instantiate
the spacing bound, giving 1 + 5 ≤ 6. -/
theorem C7_swing_point_spacing_witness : (6 : ℕ) + 5 ≤ 1 ∨ (1 : ℕ) + 5 ≤ 6 :=
  C7_swing_point_spacing.1 [0, 5, 4, 6, 7, 8, 10, 9, 0, 0]
    [1, 1, 1, 1, 1, 1, 1, 1, 1, 1] [1, 1, 1, 1, 1, 1, 1, 1, 1, 1] 5 1 6
    (by decide) (by decide) (by decide)

/-! ### Short series helpers -/

/-- No interior local maxima exist on fewer than three samples. -/
lemma localMaxima_short (x : List ℚ) (h : x.length < 3) :
    localMaxima x = [] := by
  unfold localMaxima
  rcases hn : x.length with _ | n1
  · rfl
  · rcases hn1 : n1 with _ | n2
    · rw [localMaximaAux]
      simp
    · rcases hn2 : n2 with _ | n3
      · rw [localMaximaAux]
        simp
      · omega

/-- find_peaks is empty when there are no local maxima. -/
lemma find_peaks_of_no_maxima (x : List ℚ) (d : ℕ) (pmin : ℚ)
    (h : localMaxima x = []) : find_peaks x d pmin = [] := by
  unfold find_peaks selectByPeakDistance
  rw [h]
  rfl

/-- C9 (amended).  The detector produces no swing point on fewer than 3
candles (an interior local maximum needs three samples); it does not,
however, require 2·L+1 candles — see the counterexample theorem. -/
theorem C9_short_series_no_swing (high low atr : List ℚ) (L i : ℕ)
    (hh : high.length < 3) (hl : low.length < 3) :
    (get_swing_points high low atr L).1.getD i false = false ∧
    (get_swing_points high low atr L).2.getD i false = false := by
  constructor
  · cases hflag : (get_swing_points high low atr L).1.getD i false with
    | false => rfl
    | true =>
      unfold get_swing_points at hflag
      have hm := flag_getD_mem _ _ _ hflag
      rw [find_peaks_of_no_maxima high L _ (localMaxima_short high hh)]
        at hm
      cases hm
  · cases hflag : (get_swing_points high low atr L).2.getD i false with
    | false => rfl
    | true =>
      unfold get_swing_points at hflag
      have hm := flag_getD_mem _ _ _ hflag
      have hlen : (low.map (fun v => -v)).length < 3 := by
        rwa [List.length_map]
      rw [find_peaks_of_no_maxima _ L _ (localMaxima_short _ hlen)] at hm
      cases hm

/-- Witness for C9: a two-candle series carries no swing flag at all. -/
theorem C9_short_series_no_swing_witness :
    (get_swing_points [1, 2] [1, 1] [1, 1] 5).1.getD 0 false = false ∧
    (get_swing_points [1, 2] [1, 1] [1, 1] 5).2.getD 0 false = false :=
  C9_short_series_no_swing [1, 2] [1, 1] [1, 1] 5 0 (by decide) (by decide)

/-- C9 (counterexample).  A three-candle series — far fewer than
2·5+1 = 11 — still yields a swing high at index 1: scipy find_peaks only
needs an interior local maximum, not a full 2·L+1 window. -/
theorem C9_short_series_cex :
    ([0, 10, 0] : List ℚ).length < 2 * 5 + 1 ∧
    (get_swing_points [0, 10, 0] [1, 1, 1] [1, 1, 1] 5).1.getD 1 false
      = true := by
  refine ⟨by decide, by decide⟩

end FVG
